import Mathlib

/-!
Verification development for the process-supervision and self-update core of
`scripts/gui-server.py` (CLIProxyAPI-Plus GUI management server).

The Python source is shallowly embedded: the mutable environment (version
file, binary/GUI directories, OS process table, log files) is an explicit
`World` record threaded through each operation, and the outcomes of external
effects (remote fetch, archive download, extraction, copy failures, child
process survival) are parameters of the operations.  Every definition mirrors
one Python function of the source and keeps its name.
-/

namespace GuiServer

/-- Boolean test that the first character list is a prefix of the second
(used to model Python's `in` substring operator). -/
def isPrefixB : List Char → List Char → Bool
  | [], _ => true
  | _ :: _, [] => false
  | a :: as, b :: bs => a == b && isPrefixB as bs

/-- Boolean test that the first character list occurs contiguously inside the
second (Python's `sub in hay` on strings). -/
def isInfixB (sub : List Char) : List Char → Bool
  | [] => isPrefixB sub []
  | b :: bs => isPrefixB sub (b :: bs) || isInfixB sub bs

/-- Python's `sub in hay` substring containment on strings. -/
def containsStr (hay sub : String) : Bool := isInfixB sub.data hay.data

/-- `SCRIPT_VERSION = "1.1.0"` from the source. -/
def SCRIPT_VERSION : String := "1.1.0"

/-- `PROCESS_NAMES = ["cliproxyapi-plus", "cli-proxy-api"]` from the source. -/
def PROCESS_NAMES : List String := ["cliproxyapi-plus", "cli-proxy-api"]

/-- Rendering of the `BINARY` path constant used inside error messages. -/
def BINARY_PATH : String := "HOME/bin/cliproxyapi-plus"

/-- Rendering of the `CONFIG_FILE` path constant used inside error messages. -/
def CONFIG_PATH : String := "HOME/.cli-proxy-api/config.yaml"

/-- An OS process as observed by the locator: its pid and reported name. -/
structure ProcInfo where
  pid : Nat
  name : String
deriving DecidableEq

/-- The match test of `get_server_process`:
`any(pname in name for pname in PROCESS_NAMES)`. -/
def isMatch (p : ProcInfo) : Bool :=
  PROCESS_NAMES.any (fun n => containsStr p.name n)

/-- `get_server_process()`: scan the process table and return the first
process whose name contains one of the known executable names. -/
def get_server_process (procs : List ProcInfo) : Option ProcInfo :=
  procs.find? isMatch

/-- The processes of a table that match the locator's name filter. -/
def matchingProcs (procs : List ProcInfo) : List ProcInfo :=
  procs.filter isMatch

/-- The JSON record stored in `version.json`.  Each field is optional because
the stored JSON object may lack that key (`none` models an absent key; for
`commitDate`/`lastCheck` it also covers an explicit `null`). -/
structure VersionJson where
  scripts : Option String
  commitSha : Option String
  commitDate : Option String
  lastCheck : Option String
deriving DecidableEq

/-- State of the version file on disk: absent, present but not valid JSON,
or a parsed record. -/
inductive VFile
  | missing
  | invalid (raw : String)
  | valid (v : VersionJson)
deriving DecidableEq

/-- A file in the live binary directory: its content and executable bit. -/
structure FileRec where
  content : String
  executable : Bool
deriving DecidableEq

/-- One entry of a directory listing inside the extracted archive
(`iterdir()` item): its name, whether it is a regular file, its content. -/
structure Entry where
  name : String
  isFile : Bool
  content : String
deriving DecidableEq

/-- A top-level folder of the extracted archive, with its optional
`scripts` and `gui` subdirectories (`none` = subdirectory absent). -/
structure Folder where
  scripts : Option (List Entry)
  gui : Option (List Entry)
deriving DecidableEq

/-- Remote commit metadata fetched from the GitHub API. -/
structure Remote where
  sha : String
  date : String
  message : String
deriving DecidableEq

/-- The result dictionary of `get_update_info()`. -/
structure UpdateInfo where
  currentVersion : String
  currentCommit : String
  latestCommit : Option String
  latestCommitDate : Option String
  latestCommitMessage : String
  hasUpdate : Bool
  error : Option String
deriving DecidableEq

/-- The status record assembled by `get_server_status()` (the fields the
specification's claims mention). -/
structure Status where
  running : Bool
  pid : Option Nat
deriving DecidableEq

/-- The whole mutable environment the operations touch: version file,
binary directory, GUI asset directory (`none` = directory absent), process
table, existence of the server binary and of the configuration file, and the
two redirected log files. -/
structure World where
  versionFile : VFile
  binDir : List (String × FileRec)
  guiDir : Option (List (String × String))
  procs : List ProcInfo
  binaryExists : Bool
  configExists : Bool
  stdoutLog : String
  stderrLog : String
deriving DecidableEq

/-- Write (create or overwrite) the entry named `n` in a directory listing. -/
def setEntry {α : Type} : List (String × α) → String → α → List (String × α)
  | [], n, v => [(n, v)]
  | (m, u) :: rest, n, v =>
    if m = n then (n, v) :: rest else (m, u) :: setEntry rest n v

/-- Look up the entry named `n` in a directory listing. -/
def getEntry {α : Type} : List (String × α) → String → Option α
  | [], _ => none
  | (m, u) :: rest, n => if m = n then some u else getEntry rest n

/-- The `default_version` dictionary of `get_local_version()`. -/
def defaultVersion : VersionJson :=
  { scripts := some SCRIPT_VERSION
    commitSha := some "unknown"
    commitDate := none
    lastCheck := none }

/-- `get_local_version()`: if the file exists and parses, return the record
with `commitSha` defaulted to "unknown" when absent (the file itself is left
unchanged); otherwise (file absent, or unreadable/unparsable) write the full
default record to disk and return it.  Returns the record handed back to the
caller together with the resulting file state. -/
def get_local_version : VFile → VersionJson × VFile
  | VFile.valid v =>
    (if v.commitSha = none then { v with commitSha := some "unknown" } else v,
     VFile.valid v)
  | _ => (defaultVersion, VFile.valid defaultVersion)

/-- The installed commit a read of the version file reports ("unknown" when
the field is absent; also the value for a missing or corrupt file). -/
def storedSha (vf : VFile) : String :=
  ((get_local_version vf).1.commitSha).getD "unknown"

/-- The installed commit date a read of the version file reports. -/
def storedDate (vf : VFile) : Option String :=
  (get_local_version vf).1.commitDate

/-- Python's `message.split(chr 10)[0]`: the first line of a string. -/
def firstLine (s : String) : String :=
  String.mk (s.data.takeWhile (fun c => c ≠ '\n'))

/-- `get_update_info()`: read the local version record; build the result
dictionary (accessing the `scripts` key, which raises `KeyError` when the
stored record lacks it — modelled as the `.error` case); then attempt the
remote fetch.  On fetch failure the `error` field is set and the file is left
as the read left it.  On success `hasUpdate` is computed, `lastCheck` is set
to `now` and the (commitSha-injected) record is written back to the file.
Returns the resulting file state and either the uncaught exception or the
result dictionary. -/
def get_update_info (vf : VFile) (fetch : Except String Remote) (now : String) :
    VFile × Except String UpdateInfo :=
  let loc := (get_local_version vf).1
  let vf1 := (get_local_version vf).2
  match loc.scripts with
  | none => (vf1, Except.error "KeyError: scripts")
  | some sv =>
    let cur := loc.commitSha.getD "unknown"
    match fetch with
    | Except.error e =>
      (vf1, Except.ok
        { currentVersion := sv
          currentCommit := cur
          latestCommit := none
          latestCommitDate := none
          latestCommitMessage := ""
          hasUpdate := false
          error := some e })
    | Except.ok r =>
      let latest := r.sha.take 7
      let hasUpd : Bool := if cur = "unknown" then true else decide (cur ≠ latest)
      let loc2 := { loc with lastCheck := some now }
      (VFile.valid loc2, Except.ok
        { currentVersion := sv
          currentCommit := cur
          latestCommit := some latest
          latestCommitDate := some r.date
          latestCommitMessage := firstLine r.message
          hasUpdate := hasUpd
          error := none })

/-- `get_server_status()`: locate the process; report `running` and its pid. -/
def get_server_status (procs : List ProcInfo) : Status :=
  match get_server_process procs with
  | some p => { running := true, pid := some p.pid }
  | none => { running := false, pid := none }

/-- External nondeterminism of one `start_api_server()` call: the pid the OS
assigns to the spawned child, whether the child is still alive at the 500 ms
liveness re-check, and what it wrote to the logs if it died. -/
structure StartEnv where
  newPid : Nat
  childSurvives : Bool
  childOutput : String
deriving DecidableEq

/-- `start_api_server()`: fail if the locator finds a match (message carries
that pid), if the binary is absent, or if the configuration file is absent —
in those cases the world is untouched.  Otherwise truncate both log files,
spawn the child, wait, and re-check: a surviving child yields success with
its pid and a process-table entry; an exited child yields the
"Server exited immediately" failure with the log tail appended. -/
def start_api_server (w : World) (env : StartEnv) : World × Except String Nat :=
  match get_server_process w.procs with
  | some p =>
    (w, Except.error ("Server already running (PID: " ++ toString p.pid ++ ")"))
  | none =>
    if w.binaryExists = false then
      (w, Except.error ("Binary not found: " ++ BINARY_PATH))
    else if w.configExists = false then
      (w, Except.error ("Config not found: " ++ CONFIG_PATH))
    else
      let w1 := { w with stdoutLog := "", stderrLog := "" }
      if env.childSurvives then
        ({ w1 with procs := w1.procs ++ [⟨env.newPid, "cliproxyapi-plus"⟩] },
         Except.ok env.newPid)
      else
        ({ w1 with stderrLog := env.childOutput },
         Except.error
           (if env.childOutput = "" then "Server exited immediately"
            else "Server exited immediately: " ++ env.childOutput))

/-- `stop_api_server()`: fail with "Server not running" when the locator
finds nothing; otherwise send SIGTERM to the discovered pid (modelled as
removing every table entry with that pid) and report success. -/
def stop_api_server (w : World) : World × Except String Unit :=
  match get_server_process w.procs with
  | none => (w, Except.error "Server not running")
  | some p =>
    ({ w with procs := w.procs.filter (fun q => q.pid != p.pid) }, Except.ok ())

/-- `restart_api_server()`: stop (result ignored), wait, then start. -/
def restart_api_server (w : World) (env : StartEnv) : World × Except String Nat :=
  start_api_server (stop_api_server w).1 env

/-- Observable effects of an install run, in execution order.  `checkWrite`
is the version-file write performed by the embedded update check (it stores
the new `lastCheck`); `writeVersion` is the final write that advances
`commitSha`/`commitDate`. -/
inductive Event
  | checkWrite
  | stopSrv
  | downloadDone
  | extractDone
  | copyScript (name : String)
  | mkdirGui
  | copyGui (name : String)
  | writeVersion
  | startSrv
deriving DecidableEq

/-- One file-copy action of the install's copy phase. -/
inductive CopyAct
  | script (e : Entry)
  | mkGui
  | gui (e : Entry)
deriving DecidableEq

/-- Apply one copy action to the world: a `scripts` file is written into the
binary directory with the executable bit set (`copy2` + `chmod 0o755`); the
GUI directory is created if absent (`mkdir exist_ok=True`); a `gui` file is
written into the GUI directory. -/
def applyAct (w : World) : CopyAct → World
  | CopyAct.script e =>
    { w with binDir := setEntry w.binDir e.name { content := e.content, executable := true } }
  | CopyAct.mkGui => { w with guiDir := some (w.guiDir.getD []) }
  | CopyAct.gui e =>
    { w with guiDir := some (setEntry (w.guiDir.getD []) e.name e.content) }

/-- The trace event recorded for a copy action. -/
def actEvent : CopyAct → Event
  | CopyAct.script e => Event.copyScript e.name
  | CopyAct.mkGui => Event.mkdirGui
  | CopyAct.gui e => Event.copyGui e.name

/-- The copy actions arising from the archive's `scripts` folder: every
regular file of its listing, in order. -/
def scriptActs (f : Folder) : List CopyAct :=
  match f.scripts with
  | some es => (es.filter (fun e => e.isFile)).map CopyAct.script
  | none => []

/-- The copy actions arising from the archive's `gui` folder: a `mkdir` of
the GUI asset directory followed by a copy of every regular file. -/
def guiActs (f : Folder) : List CopyAct :=
  match f.gui with
  | some es => CopyAct.mkGui :: (es.filter (fun e => e.isFile)).map CopyAct.gui
  | none => []

/-- The full copy phase of `install_update()`: `scripts` files first, then
the `gui` directory. -/
def copyActs (f : Folder) : List CopyAct :=
  scriptActs f ++ guiActs f

/-- Whether an event is a file copy of the install's copy phase. -/
def isCopyEvent : Event → Bool
  | Event.copyScript _ => true
  | Event.copyGui _ => true
  | _ => false

/-- Whether an event persists the version file. -/
def isVersionWrite : Event → Bool
  | Event.checkWrite => true
  | Event.writeVersion => true
  | _ => false

/-- No copy event follows any `writeVersion` event of the trace. -/
def copiesPrecedeWrite : List Event → Bool
  | [] => true
  | e :: rest =>
    (if e = Event.writeVersion then rest.all (fun x => !(isCopyEvent x)) else true)
      && copiesPrecedeWrite rest

/-- No copy event follows any version-file persist of the trace: the literal
reading of "the version file is persisted only after all file copies have
completed". -/
def writesFollowCopies : List Event → Bool
  | [] => true
  | e :: rest =>
    (if isVersionWrite e = true then rest.all (fun x => !(isCopyEvent x)) else true)
      && writesFollowCopies rest

/-- External nondeterminism of one `install_update()` call: remote fetch
outcome, timestamp used for `lastCheck`, download outcome, extraction
outcome (the list of top-level directories the archive yields), an optional
copy-phase failure (raise after the first `k` copy actions, with the given
exception message), and the parameters of the final server start. -/
structure InstallEnv where
  fetch : Except String Remote
  now : String
  download : Except String Unit
  extract : Except String (List Folder)
  copyFailAt : Option (Nat × String)
  startEnv : StartEnv

/-- Result of an install run: final world, returned result (`ok` carries the
`newCommit` field of the success dictionary), and the trace of effects. -/
structure InstallOut where
  world : World
  res : Except String String
  trace : List Event

/-- `install_update()`: check for updates (this may itself write the version
file, per `get_update_info`); abort on a check failure; record whether the
server runs and stop it if so; download; extract; fail when the archive
yields no top-level directory; run the copy phase (a failure there keeps the
files already copied); only then rewrite the version file with the fetched
commit/date; finally start the server again only if it was running before.
Every failure is caught and returned as an error result. -/
def install_update (w : World) (env : InstallEnv) : InstallOut :=
  let gu := get_update_info w.versionFile env.fetch env.now
  let w1 : World := { w with versionFile := gu.1 }
  match gu.2 with
  | Except.error e => ⟨w1, Except.error e, []⟩
  | Except.ok info =>
    match info.error with
    | some e => ⟨w1, Except.error ("Failed to get update info: " ++ e), []⟩
    | none =>
      let wasRunning := (get_server_process w1.procs).isSome
      let w2 := if wasRunning then (stop_api_server w1).1 else w1
      let tr0 := if wasRunning then [Event.checkWrite, Event.stopSrv]
                 else [Event.checkWrite]
      match env.download with
      | Except.error e => ⟨w2, Except.error e, tr0⟩
      | Except.ok _ =>
        let tr1 := tr0 ++ [Event.downloadDone]
        match env.extract with
        | Except.error e => ⟨w2, Except.error e, tr1⟩
        | Except.ok [] =>
          ⟨w2, Except.error "No folder found in archive", tr1 ++ [Event.extractDone]⟩
        | Except.ok (f :: _) =>
          let tr2 := tr1 ++ [Event.extractDone]
          let acts := copyActs f
          match env.copyFailAt with
          | some kmsg =>
            ⟨(acts.take kmsg.1).foldl applyAct w2, Except.error kmsg.2,
              tr2 ++ (acts.take kmsg.1).map actEvent⟩
          | none =>
            let w3 := acts.foldl applyAct w2
            let tr3 := tr2 ++ acts.map actEvent
            let loc := (get_local_version w3.versionFile).1
            let loc2 := { loc with commitSha := info.latestCommit
                                   commitDate := info.latestCommitDate }
            let w4 := { w3 with versionFile := VFile.valid loc2 }
            let tr4 := tr3 ++ [Event.writeVersion]
            let w5 := if wasRunning then (start_api_server w4 env.startEnv).1 else w4
            let tr5 := if wasRunning then tr4 ++ [Event.startSrv] else tr4
            ⟨w5, Except.ok (info.latestCommit.getD ""), tr5⟩

/-! ### Helper lemmas -/

theorem find?_append_of_none {α : Type} (p : α → Bool) (l l2 : List α)
    (h : l.find? p = none) : (l ++ l2).find? p = l2.find? p := by
  induction l with
  | nil => rfl
  | cons a as ih =>
    cases hpa : p a with
    | true =>
      rw [List.find?_cons_of_pos _ hpa] at h
      exact absurd h (by simp)
    | false =>
      rw [List.find?_cons_of_neg _ (by simp [hpa])] at h
      rw [List.cons_append, List.find?_cons_of_neg _ (by simp [hpa])]
      exact ih h

theorem matches_share (procs : List ProcInfo)
    (hlen : (procs.filter isMatch).length ≤ 1) (p : ProcInfo)
    (hf : procs.find? isMatch = some p) :
    ∀ q ∈ procs, isMatch q = true → q = p := by
  induction procs with
  | nil => intro q hq; cases hq
  | cons a as ih =>
    intro q hq hm
    cases hpa : isMatch a with
    | true =>
      rw [List.find?_cons_of_pos _ hpa] at hf
      injection hf with hf
      subst hf
      rw [List.filter_cons_of_pos hpa] at hlen
      have h1 : as.filter isMatch = [] := by
        have h0 : (as.filter isMatch).length = 0 := by
          simpa using hlen
        exact List.length_eq_zero.mp h0
      rcases List.mem_cons.mp hq with rfl | hq'
      · rfl
      · exfalso
        have : q ∈ as.filter isMatch := List.mem_filter.mpr ⟨hq', hm⟩
        rw [h1] at this
        cases this
    | false =>
      rw [List.find?_cons_of_neg _ (by simp [hpa])] at hf
      rw [List.filter_cons_of_neg (by simp [hpa])] at hlen
      rcases List.mem_cons.mp hq with rfl | hq'
      · rw [hpa] at hm; cases hm
      · exact ih hlen hf q hq' hm

theorem stop_removes_all_matches (procs : List ProcInfo) (p : ProcInfo)
    (hlen : (matchingProcs procs).length ≤ 1)
    (hf : procs.find? isMatch = some p) :
    (procs.filter (fun q => q.pid != p.pid)).find? isMatch = none := by
  rw [List.find?_eq_none]
  intro q hq hm
  have hq' := List.mem_filter.mp hq
  have hqp : q = p := matches_share procs hlen p hf q hq'.1 hm
  subst hqp
  simp at hq'

theorem getEntry_setEntry_same {α : Type} (l : List (String × α)) (n : String) (v : α) :
    getEntry (setEntry l n v) n = some v := by
  induction l with
  | nil => simp [setEntry, getEntry]
  | cons hd tl ih =>
    obtain ⟨m, u⟩ := hd
    by_cases h : m = n
    · simp [setEntry, getEntry, h]
    · simp [setEntry, getEntry, h, ih]

theorem getEntry_setEntry_other {α : Type} (l : List (String × α)) (n m : String) (v : α)
    (h : n ≠ m) : getEntry (setEntry l n v) m = getEntry l m := by
  induction l with
  | nil => simp [setEntry, getEntry, h]
  | cons hd tl ih =>
    obtain ⟨a, u⟩ := hd
    by_cases ha : a = n
    · subst ha
      simp [setEntry, getEntry, h]
    · simp [setEntry, getEntry, ha, ih]

theorem applyAct_versionFile (w : World) (a : CopyAct) :
    (applyAct w a).versionFile = w.versionFile := by
  cases a <;> rfl

theorem applyAct_procs (w : World) (a : CopyAct) :
    (applyAct w a).procs = w.procs := by
  cases a <;> rfl

theorem applyAct_binaryExists (w : World) (a : CopyAct) :
    (applyAct w a).binaryExists = w.binaryExists := by
  cases a <;> rfl

theorem applyAct_configExists (w : World) (a : CopyAct) :
    (applyAct w a).configExists = w.configExists := by
  cases a <;> rfl

theorem foldl_applyAct_versionFile (acts : List CopyAct) (w : World) :
    (acts.foldl applyAct w).versionFile = w.versionFile := by
  induction acts generalizing w with
  | nil => rfl
  | cons a as ih => rw [List.foldl_cons, ih, applyAct_versionFile]

theorem foldl_applyAct_procs (acts : List CopyAct) (w : World) :
    (acts.foldl applyAct w).procs = w.procs := by
  induction acts generalizing w with
  | nil => rfl
  | cons a as ih => rw [List.foldl_cons, ih, applyAct_procs]

theorem foldl_applyAct_binaryExists (acts : List CopyAct) (w : World) :
    (acts.foldl applyAct w).binaryExists = w.binaryExists := by
  induction acts generalizing w with
  | nil => rfl
  | cons a as ih => rw [List.foldl_cons, ih, applyAct_binaryExists]

theorem foldl_applyAct_configExists (acts : List CopyAct) (w : World) :
    (acts.foldl applyAct w).configExists = w.configExists := by
  induction acts generalizing w with
  | nil => rfl
  | cons a as ih => rw [List.foldl_cons, ih, applyAct_configExists]

theorem foldl_script_guiDir (es : List Entry) (w : World) :
    ((es.map CopyAct.script).foldl applyAct w).guiDir = w.guiDir := by
  induction es generalizing w with
  | nil => rfl
  | cons e es ih =>
    rw [List.map_cons, List.foldl_cons, ih]
    rfl

theorem foldl_script_binDir_other (es : List Entry) (w : World) (n : String)
    (h : ∀ e ∈ es, e.name ≠ n) :
    getEntry ((es.map CopyAct.script).foldl applyAct w).binDir n = getEntry w.binDir n := by
  induction es generalizing w with
  | nil => rfl
  | cons a as ih =>
    rw [List.map_cons, List.foldl_cons]
    rw [ih _ (fun x hx => h x (List.mem_cons_of_mem _ hx))]
    exact getEntry_setEntry_other _ _ _ _ (h a (List.mem_cons_self _ _))

theorem foldl_script_binDir_get (es : List Entry) (w : World)
    (hnd : (es.map (fun e => e.name)).Nodup) :
    ∀ e ∈ es, getEntry ((es.map CopyAct.script).foldl applyAct w).binDir e.name =
      some { content := e.content, executable := true } := by
  induction es generalizing w with
  | nil => intro e he; cases he
  | cons a as ih =>
    rw [List.map_cons, List.nodup_cons] at hnd
    intro e he
    rcases List.mem_cons.mp he with rfl | he'
    · rw [List.map_cons, List.foldl_cons]
      have hne : ∀ x ∈ as, x.name ≠ e.name := by
        intro x hx hEq
        exact hnd.1 (hEq ▸ List.mem_map_of_mem _ hx)
      rw [foldl_script_binDir_other as _ _ hne]
      exact getEntry_setEntry_same _ _ _
    · rw [List.map_cons, List.foldl_cons]
      exact ih _ hnd.2 e he'

theorem actEvent_ne_write (a : CopyAct) : actEvent a ≠ Event.writeVersion := by
  cases a <;> simp [actEvent]

theorem actEvent_ne_start (a : CopyAct) : actEvent a ≠ Event.startSrv := by
  cases a <;> simp [actEvent]

theorem cpw_append_no_write (xs ys : List Event)
    (h : ∀ e ∈ xs, e ≠ Event.writeVersion) :
    copiesPrecedeWrite (xs ++ ys) = copiesPrecedeWrite ys := by
  induction xs with
  | nil => rfl
  | cons a as ih =>
    rw [List.cons_append]
    simp only [copiesPrecedeWrite]
    rw [if_neg (h a (List.mem_cons_self _ _)), Bool.true_and]
    exact ih (fun e he => h e (List.mem_cons_of_mem _ he))

theorem cpw_of_no_write (ys : List Event) (h : ∀ e ∈ ys, e ≠ Event.writeVersion) :
    copiesPrecedeWrite ys = true := by
  have h2 := cpw_append_no_write ys [] h
  rw [List.append_nil] at h2
  rw [h2]
  rfl

theorem cpw_of_shape (xs ys : List Event)
    (hx : ∀ e ∈ xs, e ≠ Event.writeVersion)
    (hy : ∀ e ∈ ys, isCopyEvent e = false ∧ e ≠ Event.writeVersion) :
    copiesPrecedeWrite ((xs ++ [Event.writeVersion]) ++ ys) = true := by
  rw [List.append_assoc, cpw_append_no_write xs _ hx, List.singleton_append]
  simp only [copiesPrecedeWrite, if_pos rfl]
  refine (Bool.and_eq_true _ _).mpr ⟨?_, cpw_of_no_write ys (fun e he => (hy e he).2)⟩
  rw [if_pos trivial, List.all_eq_true]
  intro e he
  simp [(hy e he).1]

theorem get_update_info_ok (vf : VFile) (r : Remote) (now sv : String)
    (hs : ((get_local_version vf).1).scripts = some sv) :
    get_update_info vf (Except.ok r) now =
      (VFile.valid { (get_local_version vf).1 with lastCheck := some now },
       Except.ok
        { currentVersion := sv
          currentCommit := ((get_local_version vf).1.commitSha).getD "unknown"
          latestCommit := some (r.sha.take 7)
          latestCommitDate := some r.date
          latestCommitMessage := firstLine r.message
          hasUpdate := if ((get_local_version vf).1.commitSha).getD "unknown" = "unknown"
                       then true
                       else decide (((get_local_version vf).1.commitSha).getD "unknown" ≠ r.sha.take 7)
          error := none }) := by
  simp only [get_update_info, hs]

theorem stop_versionFile (w : World) : ((stop_api_server w).1).versionFile = w.versionFile := by
  unfold stop_api_server
  cases hp : get_server_process w.procs <;> simp

theorem get_local_version_commitSha_isSome (vf : VFile) :
    ((get_local_version vf).1.commitSha).isSome = true := by
  cases vf with
  | valid v =>
    by_cases hc : v.commitSha = none
    · simp [get_local_version, hc]
    · simp [get_local_version, hc, Option.isSome_iff_ne_none]
  | missing => rfl
  | invalid raw => rfl

theorem storedSha_valid_some (v : VersionJson) (x : String) (h : v.commitSha = some x) :
    storedSha (VFile.valid v) = x := by
  simp [storedSha, get_local_version, h]

theorem storedDate_valid (v : VersionJson) : storedDate (VFile.valid v) = v.commitDate := by
  by_cases hc : v.commitSha = none <;> simp [storedDate, get_local_version, hc]

theorem isMatch_spawned (pid : Nat) : isMatch ⟨pid, "cliproxyapi-plus"⟩ = true := rfl

theorem start_guiDir (w : World) (env : StartEnv) :
    ((start_api_server w env).1).guiDir = w.guiDir := by
  unfold start_api_server
  cases hp : get_server_process w.procs with
  | some p => rfl
  | none =>
    by_cases hb : w.binaryExists = false
    · simp [hb]
    · by_cases hcc : w.configExists = false
      · simp [hb, hcc]
      · by_cases hsv : env.childSurvives <;> simp [hb, hcc, hsv]

theorem start_binDir (w : World) (env : StartEnv) :
    ((start_api_server w env).1).binDir = w.binDir := by
  unfold start_api_server
  cases hp : get_server_process w.procs with
  | some p => rfl
  | none =>
    by_cases hb : w.binaryExists = false
    · simp [hb]
    · by_cases hcc : w.configExists = false
      · simp [hb, hcc]
      · by_cases hsv : env.childSurvives <;> simp [hb, hcc, hsv]

theorem start_success (w : World) (env : StartEnv)
    (hfind : get_server_process w.procs = none)
    (hb : w.binaryExists = true) (hcc : w.configExists = true)
    (hsv : env.childSurvives = true) :
    start_api_server w env =
      ({ w with stdoutLog := "", stderrLog := "",
                procs := w.procs ++ [⟨env.newPid, "cliproxyapi-plus"⟩] },
       Except.ok env.newPid) := by
  simp [start_api_server, hfind, hb, hcc, hsv]

theorem isPrefixB_self_append (b c : List Char) : isPrefixB b (b ++ c) = true := by
  induction b with
  | nil => rfl
  | cons x xs ih => simp [isPrefixB, ih]

theorem isInfixB_append_left (a sub hay : List Char)
    (h : isInfixB sub hay = true) : isInfixB sub (a ++ hay) = true := by
  induction a with
  | nil => exact h
  | cons x xs ih => simp [isInfixB, ih]

theorem isInfixB_nil_sub (hay : List Char) : isInfixB [] hay = true := by
  cases hay <;> simp [isInfixB, isPrefixB]

theorem isInfixB_self_append (sub c : List Char) : isInfixB sub (sub ++ c) = true := by
  cases sub with
  | nil => exact isInfixB_nil_sub _
  | cons x xs =>
    rw [List.cons_append]
    simp [isInfixB, isPrefixB, isPrefixB_self_append]

theorem containsStr_middle (a b c : String) : containsStr (a ++ b ++ c) b = true := by
  show isInfixB b.data (a ++ b ++ c).data = true
  have hdata : (a ++ b ++ c).data = a.data ++ (b.data ++ c.data) := by
    rw [String.data_append, String.data_append, List.append_assoc]
  rw [hdata]
  exact isInfixB_append_left _ _ _ (isInfixB_self_append _ _)

/-! ### Claim C1 -/

/-- C1 counterexample: the claim that a failed install leaves VersionStore
"completely unmodified" is false.  In this run the remote check succeeds, the
download then fails with "boom", and the version file after the call differs
from the version file before the call: the embedded check step has already
persisted a new `lastCheck` value.  (`commitSha` is indeed unchanged.) -/
theorem C1_counterexample_version_store_modified :
    (install_update
      { versionFile := VFile.valid
          { scripts := some "1.1.0", commitSha := some "aaaaaaa",
            commitDate := none, lastCheck := none }
        binDir := [], guiDir := none, procs := [], binaryExists := true
        configExists := true, stdoutLog := "", stderrLog := "" }
      { fetch := Except.ok { sha := "bbbbbbb123", date := "2026-01-01", message := "m" }
        now := "T1", download := Except.error "boom", extract := Except.ok []
        copyFailAt := none
        startEnv := { newPid := 42, childSurvives := true, childOutput := "" } }).res
      = Except.error "boom"
    ∧ (install_update
      { versionFile := VFile.valid
          { scripts := some "1.1.0", commitSha := some "aaaaaaa",
            commitDate := none, lastCheck := none }
        binDir := [], guiDir := none, procs := [], binaryExists := true
        configExists := true, stdoutLog := "", stderrLog := "" }
      { fetch := Except.ok { sha := "bbbbbbb123", date := "2026-01-01", message := "m" }
        now := "T1", download := Except.error "boom", extract := Except.ok []
        copyFailAt := none
        startEnv := { newPid := 42, childSurvives := true, childOutput := "" } }).world.versionFile
      ≠ VFile.valid
          { scripts := some "1.1.0", commitSha := some "aaaaaaa",
            commitDate := none, lastCheck := none } := by
  exact ⟨rfl, by decide⟩

/-- C1 (amended): for every install run whose remote check succeeds but whose
download, extraction, folder lookup, or copy phase fails, the stored
installed commit and commit date (as read back from the version file) after
the call equal their values before the call — the install never advances
them — and the failure result carries exactly the failing stage's error
message.  (The check step does update the stored `lastCheck`, which is why
"completely unmodified" had to be weakened; see the counterexample.) -/
theorem C1_failed_step_preserves_installed_commit (w : World) (env : InstallEnv)
    (r : Remote) (sv : String)
    (hs : ((get_local_version w.versionFile).1).scripts = some sv)
    (hf : env.fetch = Except.ok r)
    (hfail : (∃ m, env.download = Except.error m)
      ∨ (∃ m, env.extract = Except.error m)
      ∨ env.extract = Except.ok []
      ∨ env.copyFailAt ≠ none) :
    storedSha (install_update w env).world.versionFile = storedSha w.versionFile
    ∧ storedDate (install_update w env).world.versionFile = storedDate w.versionFile
    ∧ (∀ m, env.download = Except.error m → (install_update w env).res = Except.error m)
    ∧ (∀ m, env.download = Except.ok () → env.extract = Except.error m →
        (install_update w env).res = Except.error m)
    ∧ (env.download = Except.ok () → env.extract = Except.ok [] →
        (install_update w env).res = Except.error "No folder found in archive")
    ∧ (∀ f fs k m, env.download = Except.ok () → env.extract = Except.ok (f :: fs) →
        env.copyFailAt = some (k, m) → (install_update w env).res = Except.error m) := by
  have hgu : get_update_info w.versionFile env.fetch env.now =
      (VFile.valid { (get_local_version w.versionFile).1 with lastCheck := some env.now },
       Except.ok
        { currentVersion := sv
          currentCommit := ((get_local_version w.versionFile).1.commitSha).getD "unknown"
          latestCommit := some (r.sha.take 7)
          latestCommitDate := some r.date
          latestCommitMessage := firstLine r.message
          hasUpdate := if ((get_local_version w.versionFile).1.commitSha).getD "unknown" = "unknown"
                       then true
                       else decide (((get_local_version w.versionFile).1.commitSha).getD "unknown" ≠ r.sha.take 7)
          error := none }) := by
    rw [hf]; exact get_update_info_ok _ r env.now sv hs
  obtain ⟨x, hx⟩ := Option.isSome_iff_exists.mp (get_local_version_commitSha_isSome w.versionFile)
  have hShaW : storedSha w.versionFile = x := by simp [storedSha, hx]
  have hDateW : storedDate w.versionFile = (get_local_version w.versionFile).1.commitDate := rfl
  set loc2 : VersionJson :=
    { (get_local_version w.versionFile).1 with lastCheck := some env.now } with hloc2
  have hloc2sha : loc2.commitSha = some x := hx
  have hShaV : storedSha (VFile.valid loc2) = x := storedSha_valid_some _ _ hloc2sha
  have hDateV : storedDate (VFile.valid loc2) = (get_local_version w.versionFile).1.commitDate := by
    rw [storedDate_valid]
  cases hd : env.download with
  | error dm =>
    simp only [install_update, hgu, hd]
    refine ⟨?_, ?_, ?_, ?_, ?_, ?_⟩
    · by_cases hrun : (get_server_process w.procs).isSome = true
      · simp [hrun, stop_versionFile, hShaV, hShaW]
      · simp [hrun, hShaV, hShaW]
    · by_cases hrun : (get_server_process w.procs).isSome = true
      · simp [hrun, stop_versionFile, hDateV, hDateW]
      · simp [hrun, hDateV, hDateW]
    · intro m hm
      injection hm with hm
      subst hm
      by_cases hrun : (get_server_process w.procs).isSome = true <;> simp [hrun]
    · intro m hm; exact absurd hm (by simp [hd])
    · intro hm; exact absurd hm (by simp [hd])
    · intro f fs k m hm; exact absurd hm (by simp [hd])
  | ok u =>
    cases he : env.extract with
    | error em =>
      simp only [install_update, hgu, hd, he]
      refine ⟨?_, ?_, ?_, ?_, ?_, ?_⟩
      · by_cases hrun : (get_server_process w.procs).isSome = true
        · simp [hrun, stop_versionFile, hShaV, hShaW]
        · simp [hrun, hShaV, hShaW]
      · by_cases hrun : (get_server_process w.procs).isSome = true
        · simp [hrun, stop_versionFile, hDateV, hDateW]
        · simp [hrun, hDateV, hDateW]
      · intro m hm; simp [hd] at hm
      · intro m hu hm
        injection hm with hm
        subst hm
        by_cases hrun : (get_server_process w.procs).isSome = true <;> simp [hrun]
      · intro hu hm; simp at hm
      · intro f fs k m hu hm; simp at hm
    | ok l =>
      cases l with
      | nil =>
        simp only [install_update, hgu, hd, he]
        refine ⟨?_, ?_, ?_, ?_, ?_, ?_⟩
        · by_cases hrun : (get_server_process w.procs).isSome = true
          · simp [hrun, stop_versionFile, hShaV, hShaW]
          · simp [hrun, hShaV, hShaW]
        · by_cases hrun : (get_server_process w.procs).isSome = true
          · simp [hrun, stop_versionFile, hDateV, hDateW]
          · simp [hrun, hDateV, hDateW]
        · intro m hm; simp [hd] at hm
        · intro m hu hm; simp at hm
        · intro hu hm
          by_cases hrun : (get_server_process w.procs).isSome = true <;> simp [hrun]
        · intro f fs k m hu hm; simp at hm
      | cons f fs =>
        cases hcf : env.copyFailAt with
        | none =>
          exfalso
          rcases hfail with ⟨m, hm⟩ | ⟨m, hm⟩ | hm | hm
          · rw [hd] at hm; cases hm
          · rw [he] at hm; cases hm
          · rw [he] at hm; simp at hm
          · exact hm hcf
        | some km =>
          simp only [install_update, hgu, hd, he, hcf]
          refine ⟨?_, ?_, ?_, ?_, ?_, ?_⟩
          · by_cases hrun : (get_server_process w.procs).isSome = true
            · simp [hrun, foldl_applyAct_versionFile, stop_versionFile, hShaV, hShaW]
            · simp [hrun, foldl_applyAct_versionFile, hShaV, hShaW]
          · by_cases hrun : (get_server_process w.procs).isSome = true
            · simp [hrun, foldl_applyAct_versionFile, stop_versionFile, hDateV, hDateW]
            · simp [hrun, foldl_applyAct_versionFile, hDateV, hDateW]
          · intro m hm; simp [hd] at hm
          · intro m hu hm; simp at hm
          · intro hu hm; simp at hm
          · intro f2 fs2 k m hu hex hcfa
            injection hcfa with hcfa
            subst hcfa
            by_cases hrun : (get_server_process w.procs).isSome = true <;> simp [hrun]

/-- C1 witness: the amended theorem applied to a concrete failing run (the
download raises "boom"): the read-back installed commit is unchanged and the
result is the download failure. -/
theorem C1_failed_step_preserves_installed_commit_witness :
    storedSha (install_update
      { versionFile := VFile.valid
          { scripts := some "1.1.0", commitSha := some "aaaaaaa",
            commitDate := none, lastCheck := none }
        binDir := [], guiDir := none, procs := [], binaryExists := true
        configExists := true, stdoutLog := "", stderrLog := "" }
      { fetch := Except.ok { sha := "bbbbbbb123", date := "2026-01-01", message := "m" }
        now := "T1", download := Except.error "boom", extract := Except.ok []
        copyFailAt := none
        startEnv := { newPid := 42, childSurvives := true, childOutput := "" } }).world.versionFile
      = "aaaaaaa"
    ∧ (install_update
      { versionFile := VFile.valid
          { scripts := some "1.1.0", commitSha := some "aaaaaaa",
            commitDate := none, lastCheck := none }
        binDir := [], guiDir := none, procs := [], binaryExists := true
        configExists := true, stdoutLog := "", stderrLog := "" }
      { fetch := Except.ok { sha := "bbbbbbb123", date := "2026-01-01", message := "m" }
        now := "T1", download := Except.error "boom", extract := Except.ok []
        copyFailAt := none
        startEnv := { newPid := 42, childSurvives := true, childOutput := "" } }).res
      = Except.error "boom" := by
  have h := C1_failed_step_preserves_installed_commit
    { versionFile := VFile.valid
        { scripts := some "1.1.0", commitSha := some "aaaaaaa",
          commitDate := none, lastCheck := none }
      binDir := [], guiDir := none, procs := [], binaryExists := true
      configExists := true, stdoutLog := "", stderrLog := "" }
    { fetch := Except.ok { sha := "bbbbbbb123", date := "2026-01-01", message := "m" }
      now := "T1", download := Except.error "boom", extract := Except.ok []
      copyFailAt := none
      startEnv := { newPid := 42, childSurvives := true, childOutput := "" } }
    { sha := "bbbbbbb123", date := "2026-01-01", message := "m" } "1.1.0"
    rfl rfl (Or.inl ⟨"boom", rfl⟩)
  exact ⟨h.1.trans (by decide), h.2.2.1 "boom" rfl⟩

/-! ### Claim C2 -/

/-- C2 counterexample: in a fully successful install run that copies one
script file, the version file is NOT persisted only after all file copies
have completed: the embedded check step persists the file (updating
`lastCheck`) before the download, extraction and copies, so a version-file
write precedes a copy event in the trace. -/
theorem C2_counterexample_check_persists_before_copies :
    (install_update
      { versionFile := VFile.valid
          { scripts := some "1.1.0", commitSha := some "aaaaaaa",
            commitDate := none, lastCheck := none }
        binDir := [], guiDir := none, procs := [], binaryExists := true
        configExists := true, stdoutLog := "", stderrLog := "" }
      { fetch := Except.ok { sha := "bbbbbbb123", date := "2026-01-01", message := "m" }
        now := "T1", download := Except.ok ()
        extract := Except.ok [{ scripts := some [{ name := "run.sh", isFile := true, content := "echo" }], gui := none }]
        copyFailAt := none
        startEnv := { newPid := 42, childSurvives := true, childOutput := "" } }).res
      = Except.ok "bbbbbbb"
    ∧ writesFollowCopies (install_update
      { versionFile := VFile.valid
          { scripts := some "1.1.0", commitSha := some "aaaaaaa",
            commitDate := none, lastCheck := none }
        binDir := [], guiDir := none, procs := [], binaryExists := true
        configExists := true, stdoutLog := "", stderrLog := "" }
      { fetch := Except.ok { sha := "bbbbbbb123", date := "2026-01-01", message := "m" }
        now := "T1", download := Except.ok ()
        extract := Except.ok [{ scripts := some [{ name := "run.sh", isFile := true, content := "echo" }], gui := none }]
        copyFailAt := none
        startEnv := { newPid := 42, childSurvives := true, childOutput := "" } }).trace
      = false := by
  exact ⟨rfl, rfl⟩

/-- C2 (amended): for every install run in which the check, download,
extraction and copy phase all succeed — and, if the server was running, the
restart succeeds too — the stored installed commit after the call equals the
`latestCommit` (first seven characters of the fetched sha) obtained in the
check step; the write that advances `commitSha`/`commitDate` happens only
after all file copies have completed (the check step's `lastCheck` persist,
however, precedes the copies — see the counterexample); and the server's
running-state after the call equals its running-state before the call, the
server being started again exactly when it was running before. -/
theorem C2_successful_install (w : World) (env : InstallEnv) (r : Remote) (sv : String)
    (f : Folder) (fs : List Folder)
    (hs : ((get_local_version w.versionFile).1).scripts = some sv)
    (hf : env.fetch = Except.ok r)
    (hd : env.download = Except.ok ())
    (he : env.extract = Except.ok (f :: fs))
    (hc : env.copyFailAt = none)
    (hstart : ∀ p, get_server_process w.procs = some p →
      ((matchingProcs w.procs).length ≤ 1 ∧ w.binaryExists = true ∧ w.configExists = true
        ∧ env.startEnv.childSurvives = true)) :
    storedSha (install_update w env).world.versionFile = r.sha.take 7
    ∧ (get_server_status (install_update w env).world.procs).running
        = (get_server_status w.procs).running
    ∧ copiesPrecedeWrite (install_update w env).trace = true
    ∧ Event.writeVersion ∈ (install_update w env).trace
    ∧ ((Event.startSrv ∈ (install_update w env).trace)
        ↔ (get_server_process w.procs).isSome = true) := by
  have hgu : get_update_info w.versionFile env.fetch env.now =
      (VFile.valid { (get_local_version w.versionFile).1 with lastCheck := some env.now },
       Except.ok
        { currentVersion := sv
          currentCommit := ((get_local_version w.versionFile).1.commitSha).getD "unknown"
          latestCommit := some (r.sha.take 7)
          latestCommitDate := some r.date
          latestCommitMessage := firstLine r.message
          hasUpdate := if ((get_local_version w.versionFile).1.commitSha).getD "unknown" = "unknown"
                       then true
                       else decide (((get_local_version w.versionFile).1.commitSha).getD "unknown" ≠ r.sha.take 7)
          error := none }) := by
    rw [hf]; exact get_update_info_ok _ r env.now sv hs
  cases hrun : get_server_process w.procs with
  | none =>
    simp only [install_update, hgu, hd, he, hc, hrun, Option.isSome_none, Bool.false_eq_true,
      if_false, ite_false]
    refine ⟨?_, ?_, ?_, ?_, ?_⟩
    · simp only [foldl_applyAct_versionFile]
      exact storedSha_valid_some _ _ rfl
    · simp only [foldl_applyAct_procs]
    · rw [cpw_append_no_write]
      · rfl
      · intro e hee h
        subst h
        simp [actEvent_ne_write] at hee
    · simp
    · simp [List.mem_append, List.mem_map, actEvent_ne_start]
  | some p =>
    obtain ⟨hone, hb, hcfg, hsv⟩ := hstart p hrun
    have hrunf : List.find? isMatch w.procs = some p := hrun
    have hfind2 : List.find? isMatch (List.filter (fun q => q.pid != p.pid) w.procs) = none :=
      stop_removes_all_matches w.procs p hone hrun
    have hfind3 : List.find? isMatch
        (List.filter (fun q => q.pid != p.pid) w.procs
          ++ [⟨env.startEnv.newPid, "cliproxyapi-plus"⟩]) =
        some ⟨env.startEnv.newPid, "cliproxyapi-plus"⟩ := by
      rw [find?_append_of_none _ _ _ hfind2]
      exact List.find?_cons_of_pos _ (isMatch_spawned _)
    simp only [install_update, hgu, hd, he, hc, get_server_process, hrunf, Option.isSome_some,
      if_true, ite_true, stop_api_server, foldl_applyAct_procs, foldl_applyAct_binaryExists,
      foldl_applyAct_configExists, start_api_server, hfind2, hb, hcfg, hsv,
      Bool.true_eq_false, if_false, ite_false]
    refine ⟨?_, ?_, ?_, ?_, ?_⟩
    · exact storedSha_valid_some _ _ rfl
    · simp [get_server_status, get_server_process, hfind3, hrunf]
    · apply cpw_of_shape
      · intro e hee h
        subst h
        simp [actEvent_ne_write] at hee
      · intro e hee
        simp only [List.mem_singleton] at hee
        subst hee
        exact ⟨rfl, by simp⟩
    · simp
    · simp

/-- C2 witness: the amended theorem applied to a concrete fully successful
run with the server running beforehand: afterwards the server is again
running. -/
theorem C2_successful_install_witness :
    (get_server_status (install_update
      { versionFile := VFile.valid
          { scripts := some "1.1.0", commitSha := some "aaaaaaa",
            commitDate := none, lastCheck := none }
        binDir := [], guiDir := none, procs := [⟨7, "cliproxyapi-plus"⟩], binaryExists := true
        configExists := true, stdoutLog := "", stderrLog := "" }
      { fetch := Except.ok { sha := "bbbbbbb123", date := "2026-01-01", message := "m" }
        now := "T1", download := Except.ok ()
        extract := Except.ok [{ scripts := some [{ name := "run.sh", isFile := true, content := "echo" }], gui := none }]
        copyFailAt := none
        startEnv := { newPid := 42, childSurvives := true, childOutput := "" } }).world.procs).running
      = true := by
  have h := C2_successful_install
    { versionFile := VFile.valid
        { scripts := some "1.1.0", commitSha := some "aaaaaaa",
          commitDate := none, lastCheck := none }
      binDir := [], guiDir := none, procs := [⟨7, "cliproxyapi-plus"⟩], binaryExists := true
      configExists := true, stdoutLog := "", stderrLog := "" }
    { fetch := Except.ok { sha := "bbbbbbb123", date := "2026-01-01", message := "m" }
      now := "T1", download := Except.ok ()
      extract := Except.ok [{ scripts := some [{ name := "run.sh", isFile := true, content := "echo" }], gui := none }]
      copyFailAt := none
      startEnv := { newPid := 42, childSurvives := true, childOutput := "" } }
    { sha := "bbbbbbb123", date := "2026-01-01", message := "m" } "1.1.0"
    { scripts := some [{ name := "run.sh", isFile := true, content := "echo" }], gui := none } []
    rfl rfl rfl rfl rfl
    (fun p hp => ⟨by decide, rfl, rfl, rfl⟩)
  exact h.2.1.trans (by decide)

/-! ### Claim C3 -/

/-- C3: for every stored version state (whose read yields a `scripts` field,
otherwise the check raises before fetching) and every successfully fetched
remote commit, the update check computes
`hasUpdate = (storedCommit = "unknown" ∨ storedCommit ≠ latestCommit)` where
`latestCommit` is the first seven characters of the fetched sha; in
particular, when the stored commit equals the remote commit (and is not the
sentinel itself), `hasUpdate` is false. -/
theorem C3_hasUpdate_formula (vf : VFile) (r : Remote) (now sv : String)
    (hs : ((get_local_version vf).1).scripts = some sv) :
    ∃ info, (get_update_info vf (Except.ok r) now).2 = Except.ok info
      ∧ info.hasUpdate =
          (decide (storedSha vf = "unknown") || decide (storedSha vf ≠ r.sha.take 7))
      ∧ (storedSha vf ≠ "unknown" → storedSha vf = r.sha.take 7 → info.hasUpdate = false) := by
  refine ⟨_, congrArg Prod.snd (get_update_info_ok vf r now sv hs), ?_, ?_⟩
  · by_cases hcu : storedSha vf = "unknown"
    · simp only [storedSha] at hcu
      simp [storedSha, hcu]
    · simp only [storedSha] at hcu
      simp [storedSha, hcu]
  · intro h1 h2
    simp only [storedSha] at h1 h2
    simp only [if_neg h1]
    simp [h2]

/-- C3 witness: with stored commit "abc1234" and a remote sha whose 7-char
prefix is also "abc1234", the check reports no update. -/
theorem C3_hasUpdate_formula_witness :
    ∃ info, (get_update_info
        (VFile.valid { scripts := some "1.1.0", commitSha := some "abc1234",
                       commitDate := none, lastCheck := none })
        (Except.ok { sha := "abc1234zzz", date := "d", message := "m" }) "T").2
      = Except.ok info ∧ info.hasUpdate = false := by
  obtain ⟨info, h1, h2, h3⟩ := C3_hasUpdate_formula
    (VFile.valid { scripts := some "1.1.0", commitSha := some "abc1234",
                   commitDate := none, lastCheck := none })
    { sha := "abc1234zzz", date := "d", message := "m" } "T" "1.1.0" rfl
  exact ⟨info, h1, h3 (by decide) (by decide)⟩

/-! ### Claim C4 -/

/-- C4: `restart_api_server` is stop-then-start with the stop result ignored
(so it is defined whatever the prior state), and whenever it returns success
with a pid, an immediately following status reports `running = true` with
that pid. -/
theorem C4_restart_success_reports_running (w : World) (env : StartEnv) (pid : Nat)
    (h : (restart_api_server w env).2 = Except.ok pid) :
    (get_server_status (restart_api_server w env).1.procs).running = true
    ∧ (get_server_status (restart_api_server w env).1.procs).pid = some pid := by
  unfold restart_api_server at h ⊢
  cases hfind : get_server_process ((stop_api_server w).1).procs with
  | some p => simp [start_api_server, hfind] at h
  | none =>
    have hfindf : List.find? isMatch ((stop_api_server w).1).procs = none := hfind
    by_cases hb : ((stop_api_server w).1).binaryExists = false
    · simp [start_api_server, hfind, hb] at h
    · by_cases hcc : ((stop_api_server w).1).configExists = false
      · simp [start_api_server, hfind, hb, hcc] at h
      · by_cases hsv : env.childSurvives
        · have hfind3 : List.find? isMatch
              (((stop_api_server w).1).procs ++ [⟨env.newPid, "cliproxyapi-plus"⟩]) =
              some ⟨env.newPid, "cliproxyapi-plus"⟩ := by
            rw [find?_append_of_none _ _ _ hfindf]
            exact List.find?_cons_of_pos _ (isMatch_spawned _)
          have hb' : ((stop_api_server w).1).binaryExists = true := by
            simpa using hb
          have hcc' : ((stop_api_server w).1).configExists = true := by
            simpa using hcc
          rw [start_success _ _ hfind hb' hcc' hsv] at h ⊢
          simp at h
          subst h
          simp [get_server_status, get_server_process, hfind3]
        · simp [start_api_server, hfind, hb, hcc, hsv] at h

/-- C4 witness: restarting with no process running succeeds with the new pid
42 and status then reports running with pid 42. -/
theorem C4_restart_success_reports_running_witness :
    (get_server_status (restart_api_server
      { versionFile := VFile.missing, binDir := [], guiDir := none, procs := []
        binaryExists := true, configExists := true, stdoutLog := "", stderrLog := "" }
      { newPid := 42, childSurvives := true, childOutput := "" }).1.procs).running = true
    ∧ (get_server_status (restart_api_server
      { versionFile := VFile.missing, binDir := [], guiDir := none, procs := []
        binaryExists := true, configExists := true, stdoutLog := "", stderrLog := "" }
      { newPid := 42, childSurvives := true, childOutput := "" }).1.procs).pid = some 42 := by
  exact C4_restart_success_reports_running
    { versionFile := VFile.missing, binDir := [], guiDir := none, procs := []
      binaryExists := true, configExists := true, stdoutLog := "", stderrLog := "" }
    { newPid := 42, childSurvives := true, childOutput := "" } 42 rfl

/-! ### Claim C5 -/

/-- C5: `start_api_server` fails with the already-running error whenever the
locator finds a match, and that error message contains the found process's
pid; with no match it fails with the binary-missing error when the
executable is absent, and with the config-missing error when the
configuration file is absent; in all three cases the world is returned
untouched (no launch is attempted). -/
theorem C5_start_failure_modes (w : World) (env : StartEnv) :
    (∀ p, get_server_process w.procs = some p →
      start_api_server w env =
        (w, Except.error ("Server already running (PID: " ++ toString p.pid ++ ")"))
      ∧ containsStr ("Server already running (PID: " ++ toString p.pid ++ ")")
          (toString p.pid) = true)
    ∧ (get_server_process w.procs = none → w.binaryExists = false →
        start_api_server w env = (w, Except.error ("Binary not found: " ++ BINARY_PATH)))
    ∧ (get_server_process w.procs = none → w.binaryExists = true → w.configExists = false →
        start_api_server w env = (w, Except.error ("Config not found: " ++ CONFIG_PATH))) := by
  refine ⟨?_, ?_, ?_⟩
  · intro p hp
    refine ⟨by simp [start_api_server, hp], ?_⟩
    exact containsStr_middle "Server already running (PID: " (toString p.pid) ")"
  · intro hp hb
    simp [start_api_server, hp, hb]
  · intro hp hb hcc
    simp [start_api_server, hp, hb, hcc]

/-- C5 witness: with process 7 running, start fails with the message carrying
pid 7, and the world is unchanged. -/
theorem C5_start_failure_modes_witness :
    start_api_server
      { versionFile := VFile.missing, binDir := [], guiDir := none
        procs := [⟨7, "cliproxyapi-plus"⟩]
        binaryExists := true, configExists := true, stdoutLog := "", stderrLog := "" }
      { newPid := 42, childSurvives := true, childOutput := "" }
      = ({ versionFile := VFile.missing, binDir := [], guiDir := none
           procs := [⟨7, "cliproxyapi-plus"⟩]
           binaryExists := true, configExists := true, stdoutLog := "", stderrLog := "" },
         Except.error "Server already running (PID: 7)")
    ∧ containsStr "Server already running (PID: 7)" "7" = true := by
  have h := (C5_start_failure_modes
    { versionFile := VFile.missing, binDir := [], guiDir := none
      procs := [⟨7, "cliproxyapi-plus"⟩]
      binaryExists := true, configExists := true, stdoutLog := "", stderrLog := "" }
    { newPid := 42, childSurvives := true, childOutput := "" }).1
    ⟨7, "cliproxyapi-plus"⟩ rfl
  exact ⟨h.1, by decide⟩

/-! ### Claim C6 -/

/-- C6: for every install run whose check, download, extraction and copy
phase succeed and whose extracted folder contains a `scripts` listing but no
`gui` subdirectory, the GUI asset directory is left exactly as it was (in
particular it is not created when absent), and every regular file of the
`scripts` listing ends up in the live binary directory under its own name,
with its content and with the executable bit set.  (The directory listing
has pairwise distinct names, as `iterdir` guarantees.) -/
theorem C6_scripts_only_archive (w : World) (env : InstallEnv) (r : Remote) (sv : String)
    (f : Folder) (fs : List Folder) (es : List Entry)
    (hs : ((get_local_version w.versionFile).1).scripts = some sv)
    (hf : env.fetch = Except.ok r)
    (hd : env.download = Except.ok ())
    (he : env.extract = Except.ok (f :: fs))
    (hc : env.copyFailAt = none)
    (hscr : f.scripts = some es)
    (hgui : f.gui = none)
    (hnd : ((es.filter (fun e => e.isFile)).map (fun e => e.name)).Nodup) :
    (install_update w env).world.guiDir = w.guiDir
    ∧ ∀ e ∈ es, e.isFile = true →
        getEntry (install_update w env).world.binDir e.name =
          some { content := e.content, executable := true } := by
  have hgu : get_update_info w.versionFile env.fetch env.now =
      (VFile.valid { (get_local_version w.versionFile).1 with lastCheck := some env.now },
       Except.ok
        { currentVersion := sv
          currentCommit := ((get_local_version w.versionFile).1.commitSha).getD "unknown"
          latestCommit := some (r.sha.take 7)
          latestCommitDate := some r.date
          latestCommitMessage := firstLine r.message
          hasUpdate := if ((get_local_version w.versionFile).1.commitSha).getD "unknown" = "unknown"
                       then true
                       else decide (((get_local_version w.versionFile).1.commitSha).getD "unknown" ≠ r.sha.take 7)
          error := none }) := by
    rw [hf]; exact get_update_info_ok _ r env.now sv hs
  have hacts : copyActs f = (es.filter (fun e => e.isFile)).map CopyAct.script := by
    simp [copyActs, scriptActs, guiActs, hscr, hgui]
  cases hrun : get_server_process w.procs with
  | none =>
    simp only [install_update, hgu, hd, he, hc, hrun, Option.isSome_none, Bool.false_eq_true,
      if_false, ite_false, hacts]
    constructor
    · simp [foldl_script_guiDir]
    · intro e he' hf'
      have hmem : e ∈ es.filter (fun x => x.isFile) := List.mem_filter.mpr ⟨he', hf'⟩
      exact foldl_script_binDir_get _ _ hnd e hmem
  | some p =>
    have hrunf : List.find? isMatch w.procs = some p := hrun
    simp only [install_update, hgu, hd, he, hc, get_server_process, hrunf, Option.isSome_some,
      if_true, ite_true, stop_api_server, hacts]
    constructor
    · simp [start_guiDir, foldl_script_guiDir]
    · intro e he' hf'
      have hmem : e ∈ es.filter (fun x => x.isFile) := List.mem_filter.mpr ⟨he', hf'⟩
      simp only [start_binDir]
      exact foldl_script_binDir_get _ _ hnd e hmem

/-- C6 witness: a concrete scripts-only archive with one file `run.sh`: the
GUI directory stays absent and `run.sh` lands in the binary directory,
executable, with its content. -/
theorem C6_scripts_only_archive_witness :
    (install_update
      { versionFile := VFile.valid
          { scripts := some "1.1.0", commitSha := some "aaaaaaa",
            commitDate := none, lastCheck := none }
        binDir := [], guiDir := none, procs := [], binaryExists := true
        configExists := true, stdoutLog := "", stderrLog := "" }
      { fetch := Except.ok { sha := "bbbbbbb123", date := "2026-01-01", message := "m" }
        now := "T1", download := Except.ok ()
        extract := Except.ok [{ scripts := some [{ name := "run.sh", isFile := true, content := "echo" }], gui := none }]
        copyFailAt := none
        startEnv := { newPid := 42, childSurvives := true, childOutput := "" } }).world.guiDir
      = none
    ∧ getEntry (install_update
      { versionFile := VFile.valid
          { scripts := some "1.1.0", commitSha := some "aaaaaaa",
            commitDate := none, lastCheck := none }
        binDir := [], guiDir := none, procs := [], binaryExists := true
        configExists := true, stdoutLog := "", stderrLog := "" }
      { fetch := Except.ok { sha := "bbbbbbb123", date := "2026-01-01", message := "m" }
        now := "T1", download := Except.ok ()
        extract := Except.ok [{ scripts := some [{ name := "run.sh", isFile := true, content := "echo" }], gui := none }]
        copyFailAt := none
        startEnv := { newPid := 42, childSurvives := true, childOutput := "" } }).world.binDir
      "run.sh" = some { content := "echo", executable := true } := by
  have h := C6_scripts_only_archive
    { versionFile := VFile.valid
        { scripts := some "1.1.0", commitSha := some "aaaaaaa",
          commitDate := none, lastCheck := none }
      binDir := [], guiDir := none, procs := [], binaryExists := true
      configExists := true, stdoutLog := "", stderrLog := "" }
    { fetch := Except.ok { sha := "bbbbbbb123", date := "2026-01-01", message := "m" }
      now := "T1", download := Except.ok ()
      extract := Except.ok [{ scripts := some [{ name := "run.sh", isFile := true, content := "echo" }], gui := none }]
      copyFailAt := none
      startEnv := { newPid := 42, childSurvives := true, childOutput := "" } }
    { sha := "bbbbbbb123", date := "2026-01-01", message := "m" } "1.1.0"
    { scripts := some [{ name := "run.sh", isFile := true, content := "echo" }], gui := none } []
    [{ name := "run.sh", isFile := true, content := "echo" }]
    rfl rfl rfl rfl rfl rfl rfl (by decide)
  exact ⟨h.1, h.2 { name := "run.sh", isFile := true, content := "echo" } (by decide) rfl⟩

/-! ### Claim C7 -/

/-- C7 counterexample: the claim that the failure result of an aborted
install "says that the server was left stopped" is false.  In this run the
server (pid 7) was running and was stopped, the download then fails with
"boom"; the server is indeed left stopped, but the returned error is exactly
"boom" — it contains no mention of the server having been left stopped (in
particular not the word "stopped"). -/
theorem C7_counterexample_failure_result_silent_on_stop :
    (install_update
      { versionFile := VFile.valid
          { scripts := some "1.1.0", commitSha := some "aaaaaaa",
            commitDate := none, lastCheck := none }
        binDir := [], guiDir := none, procs := [⟨7, "cliproxyapi-plus"⟩], binaryExists := true
        configExists := true, stdoutLog := "", stderrLog := "" }
      { fetch := Except.ok { sha := "bbbbbbb123", date := "2026-01-01", message := "m" }
        now := "T1", download := Except.error "boom", extract := Except.ok []
        copyFailAt := none
        startEnv := { newPid := 42, childSurvives := true, childOutput := "" } }).res
      = Except.error "boom"
    ∧ (get_server_status (install_update
      { versionFile := VFile.valid
          { scripts := some "1.1.0", commitSha := some "aaaaaaa",
            commitDate := none, lastCheck := none }
        binDir := [], guiDir := none, procs := [⟨7, "cliproxyapi-plus"⟩], binaryExists := true
        configExists := true, stdoutLog := "", stderrLog := "" }
      { fetch := Except.ok { sha := "bbbbbbb123", date := "2026-01-01", message := "m" }
        now := "T1", download := Except.error "boom", extract := Except.ok []
        copyFailAt := none
        startEnv := { newPid := 42, childSurvives := true, childOutput := "" } }).world.procs).running
      = false
    ∧ containsStr "boom" "stopped" = false := by
  exact ⟨rfl, by decide, by decide⟩

/-- C7 (amended): for every install run in which the managed process was
running (and was the only matching process, so the stop leaves nothing
running) and whose download, extraction, folder lookup or copy phase then
fails, the installer never starts the server again (no start event occurs in
the trace), the server is left stopped (status reports not running), and the
call returns a failure — which, however, carries only the failing step's
error message and does not state that the server was left stopped (see the
counterexample). -/
theorem C7_failed_install_leaves_server_stopped (w : World) (env : InstallEnv)
    (r : Remote) (sv : String) (p : ProcInfo)
    (hs : ((get_local_version w.versionFile).1).scripts = some sv)
    (hf : env.fetch = Except.ok r)
    (hrun : get_server_process w.procs = some p)
    (hone : (matchingProcs w.procs).length ≤ 1)
    (hfail : (∃ m, env.download = Except.error m)
      ∨ (∃ m, env.extract = Except.error m)
      ∨ env.extract = Except.ok []
      ∨ env.copyFailAt ≠ none) :
    Event.startSrv ∉ (install_update w env).trace
    ∧ (get_server_status (install_update w env).world.procs).running = false
    ∧ (∃ m, (install_update w env).res = Except.error m) := by
  have hgu : get_update_info w.versionFile env.fetch env.now =
      (VFile.valid { (get_local_version w.versionFile).1 with lastCheck := some env.now },
       Except.ok
        { currentVersion := sv
          currentCommit := ((get_local_version w.versionFile).1.commitSha).getD "unknown"
          latestCommit := some (r.sha.take 7)
          latestCommitDate := some r.date
          latestCommitMessage := firstLine r.message
          hasUpdate := if ((get_local_version w.versionFile).1.commitSha).getD "unknown" = "unknown"
                       then true
                       else decide (((get_local_version w.versionFile).1.commitSha).getD "unknown" ≠ r.sha.take 7)
          error := none }) := by
    rw [hf]; exact get_update_info_ok _ r env.now sv hs
  have hrunf : List.find? isMatch w.procs = some p := hrun
  have hfind2 : List.find? isMatch (List.filter (fun q => q.pid != p.pid) w.procs) = none :=
    stop_removes_all_matches w.procs p hone hrun
  cases hd : env.download with
  | error dm =>
    simp only [install_update, hgu, hd, get_server_process, hrunf, Option.isSome_some,
      if_true, ite_true, stop_api_server]
    refine ⟨by simp, ?_, ⟨dm, rfl⟩⟩
    simp [get_server_status, get_server_process, hfind2]
  | ok u =>
    cases he : env.extract with
    | error em =>
      simp only [install_update, hgu, hd, he, get_server_process, hrunf, Option.isSome_some,
        if_true, ite_true, stop_api_server]
      refine ⟨by simp, ?_, ⟨em, rfl⟩⟩
      simp [get_server_status, get_server_process, hfind2]
    | ok l =>
      cases l with
      | nil =>
        simp only [install_update, hgu, hd, he, get_server_process, hrunf, Option.isSome_some,
          if_true, ite_true, stop_api_server]
        refine ⟨by simp, ?_, ⟨_, rfl⟩⟩
        simp [get_server_status, get_server_process, hfind2]
      | cons f fs =>
        cases hcf : env.copyFailAt with
        | none =>
          exfalso
          rcases hfail with ⟨m, hm⟩ | ⟨m, hm⟩ | hm | hm
          · rw [hd] at hm; cases hm
          · rw [he] at hm; cases hm
          · rw [he] at hm; simp at hm
          · exact hm hcf
        | some km =>
          simp only [install_update, hgu, hd, he, hcf, get_server_process, hrunf,
            Option.isSome_some, if_true, ite_true, stop_api_server]
          refine ⟨?_, ?_, ⟨km.2, rfl⟩⟩
          · intro hmem
            simp [actEvent_ne_start] at hmem
            have hmem2 := List.mem_of_mem_take hmem
            rw [List.mem_map] at hmem2
            obtain ⟨a, _, ha⟩ := hmem2
            exact actEvent_ne_start a ha
          · simp [get_server_status, get_server_process, hfind2, foldl_applyAct_procs]

/-- C7 witness: the amended theorem at a concrete run: the server (pid 7)
was running, the download fails; afterwards status reports not running and
the result is a failure. -/
theorem C7_failed_install_leaves_server_stopped_witness :
    (get_server_status (install_update
      { versionFile := VFile.valid
          { scripts := some "1.1.0", commitSha := some "aaaaaaa",
            commitDate := none, lastCheck := none }
        binDir := [], guiDir := none, procs := [⟨7, "cliproxyapi-plus"⟩], binaryExists := true
        configExists := true, stdoutLog := "", stderrLog := "" }
      { fetch := Except.ok { sha := "bbbbbbb123", date := "2026-01-01", message := "m" }
        now := "T1", download := Except.error "boom", extract := Except.ok []
        copyFailAt := none
        startEnv := { newPid := 42, childSurvives := true, childOutput := "" } }).world.procs).running
      = false
    ∧ Event.startSrv ∉ (install_update
      { versionFile := VFile.valid
          { scripts := some "1.1.0", commitSha := some "aaaaaaa",
            commitDate := none, lastCheck := none }
        binDir := [], guiDir := none, procs := [⟨7, "cliproxyapi-plus"⟩], binaryExists := true
        configExists := true, stdoutLog := "", stderrLog := "" }
      { fetch := Except.ok { sha := "bbbbbbb123", date := "2026-01-01", message := "m" }
        now := "T1", download := Except.error "boom", extract := Except.ok []
        copyFailAt := none
        startEnv := { newPid := 42, childSurvives := true, childOutput := "" } }).trace := by
  have h := C7_failed_install_leaves_server_stopped
    { versionFile := VFile.valid
        { scripts := some "1.1.0", commitSha := some "aaaaaaa",
          commitDate := none, lastCheck := none }
      binDir := [], guiDir := none, procs := [⟨7, "cliproxyapi-plus"⟩], binaryExists := true
      configExists := true, stdoutLog := "", stderrLog := "" }
    { fetch := Except.ok { sha := "bbbbbbb123", date := "2026-01-01", message := "m" }
      now := "T1", download := Except.error "boom", extract := Except.ok []
      copyFailAt := none
      startEnv := { newPid := 42, childSurvives := true, childOutput := "" } }
    { sha := "bbbbbbb123", date := "2026-01-01", message := "m" } "1.1.0"
    ⟨7, "cliproxyapi-plus"⟩
    rfl rfl rfl (by decide) (Or.inl ⟨"boom", rfl⟩)
  exact ⟨h.2.1, h.1⟩

/-! ### Claim C8 -/

/-- C8 counterexample: the claim that `get_local_version` injects "a default
value for any missing required field" is false: for a stored record whose
`scripts` field is missing (but `commitSha` present), the returned record
still lacks `scripts` — the default `SCRIPT_VERSION` is not injected.  Only
a missing `commitSha` is defaulted. -/
theorem C8_counterexample_missing_field_not_defaulted :
    (get_local_version (VFile.valid
      { scripts := none, commitSha := some "abc1234",
        commitDate := none, lastCheck := none })).1.scripts = none
    ∧ (none : Option String) ≠ some SCRIPT_VERSION := by
  exact ⟨rfl, by decide⟩

/-- C8 (amended): when the version file exists and parses, `get_local_version`
returns the stored record with the sentinel "unknown" injected for a missing
`commitSha` only — every other field, present or missing, is returned exactly
as stored, and the file itself is left unchanged; when the file does not
exist, the full default record is written to disk and returned. -/
theorem C8_read_semantics (v : VersionJson) :
    ((get_local_version (VFile.valid v)).1.commitSha = some ((v.commitSha).getD "unknown"))
    ∧ ((get_local_version (VFile.valid v)).1.scripts = v.scripts)
    ∧ ((get_local_version (VFile.valid v)).1.commitDate = v.commitDate)
    ∧ ((get_local_version (VFile.valid v)).1.lastCheck = v.lastCheck)
    ∧ ((get_local_version (VFile.valid v)).2 = VFile.valid v)
    ∧ (get_local_version VFile.missing = (defaultVersion, VFile.valid defaultVersion))
    ∧ defaultVersion.commitSha = some "unknown"
    ∧ defaultVersion.scripts = some SCRIPT_VERSION := by
  by_cases hc : v.commitSha = none
  · simp [get_local_version, defaultVersion, hc]
  · obtain ⟨x, hx⟩ := Option.ne_none_iff_exists.mp hc
    simp [get_local_version, defaultVersion, ← hx]

/-! ### Claim C10 -/

/-- C10: when the version file exists but does not parse as JSON,
`get_local_version` does not raise: it overwrites the file with the full
default record and returns those defaults — the previously stored commit is
silently replaced by the sentinel "unknown" — and a following update check
with any successful fetch therefore reports `hasUpdate = true`. -/
theorem C10_invalid_version_file_reset (raw now : String) (r : Remote) :
    get_local_version (VFile.invalid raw) = (defaultVersion, VFile.valid defaultVersion)
    ∧ (get_local_version (VFile.invalid raw)).1.commitSha = some "unknown"
    ∧ (∃ info, (get_update_info (VFile.invalid raw) (Except.ok r) now).2 = Except.ok info
        ∧ info.hasUpdate = true) := by
  refine ⟨rfl, rfl, ?_⟩
  refine ⟨_, congrArg Prod.snd (get_update_info_ok (VFile.invalid raw) r now SCRIPT_VERSION rfl), ?_⟩
  simp [get_local_version, defaultVersion]

end GuiServer
